/-
Verification of the segment-sampling and caption-extraction pipeline of the
mcps-meeting-scraper repository.

The TypeScript sources are shallowly embedded below:
  * analyzeSubtitles.ts      (parseTimestamp, formatDuration, analyzeSubtitleFile)
  * fetchSubs.ts             (concatWebVtt, downloadAllSegments)
  * fetchMCPSOptimized.ts    (extractOptimizedSubtitles)
  * fetchMCPSComplete.ts     (the caption-method fallback loop of downloadSubtitles)
  * downloadFullMeetings.ts  (the same fallback loop in downloadSubtitlesFFmpeg)

JS strings are embedded as List Char, JS numbers as ℚ (the float values that
actually occur are exact sums of thousandths, which ℚ represents exactly),
and the filesystem / network effects of a run as explicit state records.
-/
import Mathlib

namespace MCPS

/-! ### Character and string primitives

JS string operations used by the scripts, modelled on List Char. -/

/-- Numeric value of a decimal digit character (codepoint minus 48). -/
def digitVal (c : Char) : Nat := c.toNat - 48

/-- Decimal digit character for a value below ten. -/
def digitChar (d : Nat) : Char := Char.ofNat (48 + d)

/-- JS String.prototype.split with a single-character separator. -/
def splitOnChar (sep : Char) : List Char → List (List Char)
  | [] => [[]]
  | c :: cs =>
    if c = sep then [] :: splitOnChar sep cs
    else
      match splitOnChar sep cs with
      | [] => [[c]]
      | h :: t => (c :: h) :: t

/-- JS String.prototype.trim: whitespace removed from both ends. -/
def trimChars (s : List Char) : List Char :=
  ((s.dropWhile Char.isWhitespace).reverse.dropWhile Char.isWhitespace).reverse

/-- Whether the string begins with the three characters of the SRT cue arrow. -/
def startsWithArrow : List Char → Bool
  | c1 :: c2 :: c3 :: _ => c1 == '-' && c2 == '-' && c3 == '>'
  | _ => false

/-- JS String.prototype.includes for the cue arrow (used by the
analyzeSubtitles.ts filter over lines). -/
def containsArrow : List Char → Bool
  | [] => false
  | c :: cs => startsWithArrow (c :: cs) || containsArrow cs

/-- Everything before the first occurrence of the cue arrow; this is
JS line.split(the arrow)[0] as used on the last timestamp line. -/
def beforeArrow : List Char → List Char
  | [] => []
  | c :: cs => if startsWithArrow (c :: cs) then [] else c :: beforeArrow cs

/-! ### DurationAnalyzer (analyzeSubtitles.ts) -/

/-- Attempt to match the timing regex of parseTimestamp at the head of the
string: two digits, a colon, two digits, a colon, two digits, a comma, three
digits.  Returns hours, minutes, seconds and milliseconds. -/
def matchTsAt : List Char → Option (Nat × Nat × Nat × Nat)
  | c1 :: c2 :: ':' :: c3 :: c4 :: ':' :: c5 :: c6 :: ',' :: c7 :: c8 :: c9 :: _ =>
    if c1.isDigit && c2.isDigit && c3.isDigit && c4.isDigit && c5.isDigit &&
        c6.isDigit && c7.isDigit && c8.isDigit && c9.isDigit then
      some (10 * digitVal c1 + digitVal c2,
            10 * digitVal c3 + digitVal c4,
            10 * digitVal c5 + digitVal c6,
            100 * digitVal c7 + 10 * digitVal c8 + digitVal c9)
    else
      none
  | _ => none

/-- Leftmost match of the timing regex anywhere in the string, as JS
String.prototype.match finds it. -/
def findTs : List Char → Option (Nat × Nat × Nat × Nat)
  | [] => none
  | c :: cs =>
    match matchTsAt (c :: cs) with
    | some r => some r
    | none => findTs cs

/-- Seconds denoted by a matched timing tuple:
hours * 3600 + minutes * 60 + seconds + ms / 1000. -/
def tsSeconds (t : Nat × Nat × Nat × Nat) : ℚ :=
  (t.1 : ℚ) * 3600 + (t.2.1 : ℚ) * 60 + (t.2.2.1 : ℚ) + (t.2.2.2 : ℚ) / 1000

/-- parseTimestamp from analyzeSubtitles.ts: match the timing regex and
convert to seconds; 0 when the regex does not match. -/
def parseTimestamp (s : List Char) : ℚ :=
  match findTs s with
  | none => 0
  | some t => tsSeconds t

/-- JS truncating rounding toward zero on rationals (Number coercion of a
division result before the remainder is taken). -/
def qtrunc (q : ℚ) : ℤ := if 0 ≤ q then ⌊q⌋ else ⌈q⌉

/-- JS remainder operator a % b on numbers: a - b * trunc(a / b). -/
def jsMod (a b : ℚ) : ℚ := a - b * (qtrunc (a / b) : ℚ)

/-- formatDuration from analyzeSubtitles.ts. -/
def formatDuration (seconds : ℚ) : String :=
  let hours : ℤ := ⌊seconds / 3600⌋
  let minutes : ℤ := ⌊jsMod seconds 3600 / 60⌋
  let secs : ℤ := ⌊jsMod seconds 60⌋
  if 0 < hours then
    toString hours ++ "h " ++ toString minutes ++ "m " ++ toString secs ++ "s"
  else if 0 < minutes then
    toString minutes ++ "m " ++ toString secs ++ "s"
  else
    toString secs ++ "s"

/-- Nonblank lines of the file content, as analyzeSubtitleFile computes them:
content.split(newline) filtered by trim-truthiness (original lines kept). -/
def subtitleLines (content : List Char) : List (List Char) :=
  (splitOnChar '\n' content).filter (fun l => !(trimChars l).isEmpty)

/-- Lines of the content that contain the cue arrow (the timestamps list of
analyzeSubtitleFile). -/
def timestampLines (content : List Char) : List (List Char) :=
  (subtitleLines content).filter containsArrow

/-- Seconds reported by analyzeSubtitleFile for the content: parseTimestamp
applied to the trimmed part of the last arrow line before the arrow; none when
no line contains the arrow. -/
def lastCueSeconds (content : List Char) : Option ℚ :=
  (timestampLines content).getLast?.map
    (fun last => parseTimestamp (trimChars (beforeArrow last)))

/-- Human-readable duration reported by analyzeSubtitleFile. -/
def subtitleDuration (content : List Char) : Option String :=
  (lastCueSeconds content).map formatDuration

/-! ### Cue rendering

The claims speak about caption artifacts whose cue timings have the form
HH:MM:SS,mmm --> HH:MM:SS,mmm; the following definitions render such timing
lines so that general statements about the analyzer can be made. -/

/-- A cue timing: hours, minutes, seconds, milliseconds. -/
structure CueTime where
  hh : Nat
  mm : Nat
  ss : Nat
  ms : Nat

/-- Digit-count bounds making a CueTime renderable in the HH:MM:SS,mmm form. -/
def CueTime.wf (t : CueTime) : Prop :=
  t.hh ≤ 99 ∧ t.mm ≤ 99 ∧ t.ss ≤ 99 ∧ t.ms ≤ 999

instance (t : CueTime) : Decidable t.wf :=
  inferInstanceAs (Decidable (t.hh ≤ 99 ∧ t.mm ≤ 99 ∧ t.ss ≤ 99 ∧ t.ms ≤ 999))

/-- Seconds denoted by a cue timing. -/
def CueTime.seconds (t : CueTime) : ℚ :=
  (t.hh : ℚ) * 3600 + (t.mm : ℚ) * 60 + (t.ss : ℚ) + (t.ms : ℚ) / 1000

/-- Render a cue timing as the twelve characters HH:MM:SS,mmm. -/
def renderTime (t : CueTime) : List Char :=
  [digitChar (t.hh / 10), digitChar (t.hh % 10), ':',
   digitChar (t.mm / 10), digitChar (t.mm % 10), ':',
   digitChar (t.ss / 10), digitChar (t.ss % 10), ',',
   digitChar (t.ms / 100), digitChar (t.ms / 10 % 10), digitChar (t.ms % 10)]

/-- Render a cue timing line: start, space, arrow, space, end. -/
def renderCueLine (a b : CueTime) : List Char :=
  renderTime a ++ ' ' :: '-' :: '-' :: '>' :: ' ' :: renderTime b

/-- Join lines with newline characters (inverse of splitting the content). -/
def joinWith (sep : Char) : List (List Char) → List Char
  | [] => []
  | [l] => l
  | l :: ls => l ++ sep :: joinWith sep ls

/-! ### SegmentSampler

fetchMCPSOptimized.ts (extractOptimizedSubtitles) and optimizedDownload.ts
(sampleBasedExtraction) both select segment files with
files.filter((_, index) => index % rate === 0). -/

/-- Elements of a list whose position satisfies the stride predicate, exactly
as the JS index-based filter computes them. -/
def sampleByStride {α : Type} (n : Nat) (files : List α) : List α :=
  (files.enum.filter (fun p => p.1 % n == 0)).map Prod.snd

/-- Positions selected by the stride filter from a list of the given length. -/
def strideIndices (n L : Nat) : List Nat :=
  (List.range L).filter (fun i => i % n == 0)

/-! ### SegmentFetcher naming and lexicographic order (fetchSubs.ts)

downloadAllSegments names the file of segment i
segment_ followed by i.toString().padStart(4, '0') followed by .ts. -/

/-- Decimal digit expansion with explicit fuel (the fuel argument only makes
the recursion on n / 10 structural; any fuel at least the digit count gives
the decimal rendering). -/
def natToCharsAux : Nat → Nat → List Char
  | 0, n => [digitChar n]
  | fuel + 1, n =>
    if n < 10 then [digitChar n]
    else natToCharsAux fuel (n / 10) ++ [digitChar (n % 10)]

/-- Decimal rendering of a natural number, as JS Number.prototype.toString. -/
def natToChars (n : Nat) : List Char := natToCharsAux n n

/-- JS String.prototype.padStart with a pad character. -/
def padStart (w : Nat) (c : Char) (s : List Char) : List Char :=
  List.replicate (w - s.length) c ++ s

/-- Local file name used for segment i by downloadAllSegments. -/
def segmentName (i : Nat) : List Char :=
  "segment_".toList ++ padStart 4 '0' (natToChars i) ++ ".ts".toList

/-- Strict lexicographic order on strings by code points, the order JS
Array.prototype.sort uses on file names. -/
def lexLt : List Char → List Char → Bool
  | [], [] => false
  | [], _ :: _ => true
  | _ :: _, [] => false
  | a :: as, b :: bs => a < b || (a == b && lexLt as bs)

/-- Reflexive closure of lexLt, the comparison a sort step consults. -/
def lexLe (a b : List Char) : Prop := lexLt b a = false

instance : DecidableRel lexLe := fun a b =>
  inferInstanceAs (Decidable (lexLt b a = false))

/-- Whether a file name ends in .ts (the readdir filter of
extractOptimizedSubtitles). -/
def endsWithTs (s : List Char) : Bool :=
  match s.reverse with
  | 's' :: 't' :: '.' :: _ => true
  | _ => false

/-! ### fetchSubs.ts: concatWebVtt and downloadAllSegments

Network and parser results are passed in explicitly: the master manifest as
parsed by m3u8-parser, the child playlist segment list, and the per-segment
fetch outcomes. -/

/-- A SUBTITLES media-group track of the master manifest. -/
structure SubtitleTrack where
  uri : Option (List Char)

/-- The master manifest as m3u8-parser exposes it to fetchSubs.ts: the
flattened SUBTITLES media-group tracks and the variant playlist uris. -/
structure MasterManifest where
  subtitleTracks : List SubtitleTrack
  playlists : List (List Char)

/-- Result of concatWebVtt: whether it returned true (tracks written) and how
many subtitle-playlist segment fetches it performed. -/
structure WebVttResult where
  wroteTracks : Bool
  segmentFetches : Nat
deriving DecidableEq

/-- concatWebVtt from fetchSubs.ts: when the SUBTITLES media groups declare no
tracks it returns false at once, before any further fetch; otherwise it fetches
every segment of every track playlist and returns true.  trackSegs gives, per
track, the segment list of that track playlist. -/
def concatWebVtt (m : MasterManifest) (trackSegs : List SubtitleTrack → List Nat) :
    WebVttResult :=
  if m.subtitleTracks.isEmpty then
    { wroteTracks := false, segmentFetches := 0 }
  else
    { wroteTracks := true, segmentFetches := (trackSegs m.subtitleTracks).sum }

/-- Number of segments downloadAllSegments will fetch: the JS conditional
maxSegments ? Math.min(maxSegments, total) : total, where both undefined and 0
are falsy. -/
def segmentCount (maxSegments : Option Nat) (total : Nat) : Nat :=
  match maxSegments with
  | some m => if m = 0 then total else Nat.min m total
  | none => total

/-- How a run of downloadAllSegments ends. -/
inductive DownloadOutcome where
  /-- The early return taken when the master manifest has no playlist: no
  scratch directory is created and nothing is thrown. -/
  | noVariant : DownloadOutcome
  /-- Normal completion after fetching the given number of segments. -/
  | completed (fetched : Nat) : DownloadOutcome
  /-- The throw on the first segment whose HTTP fetch fails. -/
  | segmentError (index : Nat) : DownloadOutcome
deriving DecidableEq

/-- downloadAllSegments from fetchSubs.ts: take the first variant playlist
(silent return when there is none), fetch min(cap, total) segments in index
order, throwing at the first failed fetch.  fetchOk tells whether the HTTP GET
for a segment index succeeds. -/
def downloadAllSegments (m : MasterManifest) (segTotal : Nat)
    (maxSegments : Option Nat) (fetchOk : Nat → Bool) : DownloadOutcome :=
  match m.playlists.head? with
  | none => .noVariant
  | some _ =>
    let cnt := segmentCount maxSegments segTotal
    match (List.range cnt).find? (fun i => !fetchOk i) with
    | some i => .segmentError i
    | none => .completed cnt

/-- Main of fetchSubs.ts: fall back to downloading video segments whenever
concatWebVtt returns false. -/
def fetchSubsMain (m : MasterManifest) (trackSegs : List SubtitleTrack → List Nat)
    (segTotal : Nat) (maxSegments : Option Nat) (fetchOk : Nat → Bool) :
    Option DownloadOutcome :=
  if (concatWebVtt m trackSegs).wroteTracks then none
  else some (downloadAllSegments m segTotal maxSegments fetchOk)

/-! ### CaptionExtractor fallback loop

downloadSubtitles in fetchMCPSComplete.ts runs an ordered list of ffmpeg
caption methods against the assembled video, all writing to the same output
path; downloadSubtitlesFFmpeg in downloadFullMeetings.ts runs the same loop
against the manifest URL with a different threshold.  Each iteration invokes
the method inside a try; if the invocation throws, the loop advances; if it
returns, the output file is statted and the loop stops exactly when the file
exists with size strictly above the threshold. -/

/-- Observable effect of invoking one extraction strategy on the shared output
file. -/
inductive Effect where
  /-- The external invocation throws (non-zero exit or timeout); the output
  file is left as it was. -/
  | crash : Effect
  /-- The invocation returns and has written an output file of the given
  size in bytes. -/
  | produce (size : Nat) : Effect
  /-- The invocation returns without writing the output file. -/
  | noOutput : Effect
deriving DecidableEq

/-- Output-file state after one strategy invocation. -/
def applyEffect (st : Option Nat) : Effect → Option Nat
  | .crash => st
  | .produce n => some n
  | .noOutput => st

/-- Whether the stat check after a non-throwing invocation accepts the output:
the invocation returned, the file exists, and its size exceeds the
threshold. -/
def attemptSucceeds (threshold : Nat) (st : Option Nat) : Effect → Bool
  | .crash => false
  | e =>
    match applyEffect st e with
    | some n => threshold < n
    | none => false

/-- The fallback loop: try each strategy in list order on the current output
state, stopping at the first one whose output passes the stat check.  Returns
the final output-file state, the number of strategies invoked, and the size of
the accepted artifact when one was accepted. -/
def runStrategies (threshold : Nat) (st : Option Nat) :
    List Effect → Option Nat × Nat × Option Nat
  | [] => (st, 0, none)
  | e :: rest =>
    let st1 := applyEffect st e
    if attemptSucceeds threshold st e then
      (st1, 1, st1)
    else
      let r := runStrategies threshold st1 rest
      (r.1, r.2.1 + 1, r.2.2)

/-- Whether every strategy of the list fails the stat check when run in order
from the given output state. -/
def allFail (threshold : Nat) (st : Option Nat) : List Effect → Bool
  | [] => true
  | e :: rest =>
    !attemptSucceeds threshold st e && allFail threshold (applyEffect st e) rest

/-! ### extractOptimizedSubtitles (fetchMCPSOptimized.ts)

The run is interpreted over an explicit record of the external behaviour it
meets: the pre-existing captions.srt, how the fetchSubs child process behaves,
and how cat and ffmpeg behave.  The scratch directory is the subs directory
fetchSubs writes into. -/

/-- External behaviour met by one run of extractOptimizedSubtitles. -/
structure ExtractEnv where
  /-- Size of a pre-existing captions.srt in the meeting directory, if any. -/
  artifact : Option Nat
  /-- Whether execSync of the fetchSubs child process throws. -/
  fetchThrows : Bool
  /-- Whether the subs scratch directory exists after the fetch step. -/
  subsDirCreated : Bool
  /-- Number of segment files present in the scratch directory. -/
  fetchedCount : Nat
  /-- Whether the cat concatenation command throws. -/
  catThrows : Bool
  /-- Whether the ffmpeg extraction command throws (e.g. hits its timeout). -/
  ffmpegThrows : Bool
  /-- Size of the captions.srt that a returning ffmpeg leaves behind, none
  when it writes no file. -/
  ffmpegOutput : Option Nat

/-- Observable outcome of one run of extractOptimizedSubtitles. -/
structure ExtractResult where
  /-- The boolean the function returns. -/
  success : Bool
  /-- Whether the fetchSubs child process was started (it performs all the
  manifest and segment network calls of the run). -/
  fetchInvoked : Bool
  /-- Whether the cat concatenation step was invoked. -/
  catInvoked : Bool
  /-- Whether the subs scratch directory still exists when the run returns. -/
  subsDirAtEnd : Bool
  /-- The captions.srt state when the run returns. -/
  artifactAfter : Option Nat
deriving DecidableEq

/-- File names the stride filter operates on: the scratch directory listing,
restricted to .ts files and sorted. -/
def scratchListing (fetchedCount : Nat) : List (List Char) :=
  List.insertionSort lexLe
    (((List.range fetchedCount).map segmentName).filter endsWithTs)

/-- The sampling step of extractOptimizedSubtitles: the stride filter is
applied only when the sample rate exceeds one. -/
def selectedFiles (rate : Nat) (files : List (List Char)) : List (List Char) :=
  if 1 < rate then sampleByStride rate files else files

/-- extractOptimizedSubtitles from fetchMCPSOptimized.ts, with sample rate
taken from the optimization level.  Mirrors the source order: early return on
a valid existing artifact; fetch; list, filter and sort the scratch directory;
stride-sample; concatenate; extract; remove the scratch directory; verify. -/
def extractOptimizedSubtitles (env : ExtractEnv) (rate : Nat) : ExtractResult :=
  match env.artifact with
  | some s =>
    if 5000 < s then
      { success := true, fetchInvoked := false, catInvoked := false,
        subsDirAtEnd := false, artifactAfter := env.artifact }
    else extractAfterCheck env rate
  | none => extractAfterCheck env rate
where
  /-- The part of the run after the already-exists check. -/
  extractAfterCheck (env : ExtractEnv) (rate : Nat) : ExtractResult :=
    if env.fetchThrows then
      { success := false, fetchInvoked := true, catInvoked := false,
        subsDirAtEnd := env.subsDirCreated, artifactAfter := env.artifact }
    else if env.subsDirCreated then
      if (selectedFiles rate (scratchListing env.fetchedCount)).isEmpty then
        { success := false, fetchInvoked := true, catInvoked := false,
          subsDirAtEnd := true, artifactAfter := env.artifact }
      else if env.catThrows then
        { success := false, fetchInvoked := true, catInvoked := true,
          subsDirAtEnd := true, artifactAfter := env.artifact }
      else if env.ffmpegThrows then
        { success := false, fetchInvoked := true, catInvoked := true,
          subsDirAtEnd := true, artifactAfter := env.artifact }
      else
        { success := match env.ffmpegOutput with
                     | some n => 1000 < n
                     | none => false,
          fetchInvoked := true, catInvoked := true,
          subsDirAtEnd := false, artifactAfter := env.ffmpegOutput }
    else
      { success := false, fetchInvoked := true, catInvoked := false,
        subsDirAtEnd := false, artifactAfter := env.artifact }

/-! ### Composition of cap and stride across the two scripts

extractOptimizedSubtitles passes the optimization level's maxSegments to the
fetchSubs child process (which downloads only that many leading segments) and
afterwards stride-filters the files that were downloaded.  The cap value 0 is
passed as no argument at all. -/

/-- The maxSegments argument extractOptimizedSubtitles hands to fetchSubs:
empty (undefined) when the level stores 0, the number otherwise. -/
def capArgument (maxSegments : Nat) : Option Nat :=
  if maxSegments = 0 then none else some maxSegments

/-- Segment files selected by a run of extractOptimizedSubtitles over a
manifest with the given total number of segments, when every fetch succeeds:
fetchSubs downloads the capped prefix, and the stride filter is applied to the
sorted listing of what was downloaded. -/
def optimizedSelection (rate maxSegments total : Nat) : List (List Char) :=
  selectedFiles rate (scratchListing (segmentCount (capArgument maxSegments) total))

/-- Modelled from the spec: the index set the claim asserts when a stride and
a cap are configured together, namely the first maxCount elements of the
stride multiples of the full manifest. -/
def specComposedIndices (rate maxCount total : Nat) : List Nat :=
  (strideIndices rate total).take maxCount

/-- All segment fetches succeed (used to instantiate network behaviour). -/
def alwaysOk : Nat → Bool := fun _ => true

/-- A track-playlist reader returning no segment lists (used to instantiate
concatWebVtt on manifests whose subtitle groups are empty). -/
def noSegLists : List SubtitleTrack → List Nat := fun _ => []

/-! ### Helper lemmas -/

theorem digitChar_isDigit {d : Nat} (h : d < 10) : (digitChar d).isDigit = true := by
  interval_cases d <;> decide

theorem digitVal_digitChar {d : Nat} (h : d < 10) : digitVal (digitChar d) = d := by
  interval_cases d <;> decide

theorem digitChar_ne_dash {d : Nat} (h : d < 10) : digitChar d ≠ '-' := by
  interval_cases d <;> decide

theorem digitChar_not_ws {d : Nat} (h : d < 10) : (digitChar d).isWhitespace = false := by
  interval_cases d <;> decide

theorem digitChar_lt_digitChar {a b : Nat} (ha : a < 10) (hb : b < 10) (h : a < b) :
    digitChar a < digitChar b := by
  interval_cases a <;> interval_cases b <;> decide

theorem qtrunc_eq_floor {q : ℚ} (h : 0 ≤ q) : qtrunc q = ⌊q⌋ := if_pos h

theorem ratFloorNatDiv (n d : ℕ) : ⌊((n : ℚ)) / (d : ℚ)⌋ = (n : ℤ) / (d : ℤ) := by
  rw [show ((n : ℚ)) / (d : ℚ) = ((n : ℤ) : ℚ) / ((d : ℕ) : ℚ) by push_cast; ring]
  exact Rat.floor_intCast_div_natCast _ _

theorem jsMod_of_nonneg {a b : ℚ} (ha : 0 ≤ a) (hb : 0 ≤ b) :
    jsMod a b = a - b * (⌊a / b⌋ : ℚ) := by
  unfold jsMod
  rw [qtrunc_eq_floor (div_nonneg ha hb)]

/-! ### C9: formatDuration buckets by hours, minutes, seconds and omits
zero-valued leading units -/

theorem floor_div_pos_iff {s c : ℚ} (_hs : 0 ≤ s) (hc : 0 < c) :
    0 < ⌊s / c⌋ ↔ c ≤ s := by
  constructor
  · intro h
    have h1 : (1 : ℚ) ≤ s / c := by
      have := Int.le_floor.mp (by omega : (1 : ℤ) ≤ ⌊s / c⌋)
      exact_mod_cast this
    calc c = 1 * c := (one_mul c).symm
      _ ≤ s / c * c := by
          exact mul_le_mul_of_nonneg_right h1 (le_of_lt hc)
      _ = s := div_mul_cancel₀ s (ne_of_gt hc)
  · intro h
    have h1 : (1 : ℚ) ≤ s / c := (le_div_iff₀ hc).mpr (by linarith)
    have := Int.le_floor.mpr (by exact_mod_cast h1 : ((1 : ℤ) : ℚ) ≤ s / c)
    omega

theorem floor_div_eq_zero {s c : ℚ} (hs : 0 ≤ s) (hc : 0 < c) (h : s < c) :
    ⌊s / c⌋ = 0 := by
  have h0 : (0 : ℤ) ≤ ⌊s / c⌋ := Int.floor_nonneg.mpr (div_nonneg hs (le_of_lt hc))
  have h1 : ¬ (0 < ⌊s / c⌋) := fun hp => absurd ((floor_div_pos_iff hs hc).mp hp) (not_le.mpr h)
  omega

theorem formatDuration_split (s : ℚ) (h0 : 0 ≤ s) :
    (3600 ≤ s → formatDuration s =
      toString ⌊s / 3600⌋ ++ "h " ++
      toString ⌊(s - 3600 * (⌊s / 3600⌋ : ℚ)) / 60⌋ ++ "m " ++
      toString ⌊s - 60 * (⌊s / 60⌋ : ℚ)⌋ ++ "s") ∧
    (s < 3600 → 60 ≤ s → formatDuration s =
      toString ⌊s / 60⌋ ++ "m " ++ toString ⌊s - 60 * (⌊s / 60⌋ : ℚ)⌋ ++ "s") ∧
    (s < 60 → formatDuration s = toString ⌊s⌋ ++ "s") := by
  have hm3600 : jsMod s 3600 = s - 3600 * (⌊s / 3600⌋ : ℚ) :=
    jsMod_of_nonneg h0 (by norm_num)
  have hm60 : jsMod s 60 = s - 60 * (⌊s / 60⌋ : ℚ) :=
    jsMod_of_nonneg h0 (by norm_num)
  refine ⟨fun hh => ?_, fun hh hm => ?_, fun hs => ?_⟩
  · have h1 : 0 < ⌊s / 3600⌋ := (floor_div_pos_iff h0 (by norm_num)).mpr hh
    unfold formatDuration
    rw [if_pos h1, hm3600, hm60]
  · have h1 : ⌊s / 3600⌋ = 0 := floor_div_eq_zero h0 (by norm_num) hh
    have h2 : jsMod s 3600 = s := by rw [hm3600, h1]; push_cast; ring
    have h3 : 0 < ⌊jsMod s 3600 / 60⌋ := by
      rw [h2]; exact (floor_div_pos_iff h0 (by norm_num)).mpr hm
    unfold formatDuration
    rw [if_neg (by omega), if_pos h3, h2, hm60]
  · have h1 : ⌊s / 3600⌋ = 0 := floor_div_eq_zero h0 (by norm_num) (by linarith)
    have h2 : jsMod s 3600 = s := by rw [hm3600, h1]; push_cast; ring
    have h3 : ⌊jsMod s 3600 / 60⌋ = 0 := by
      rw [h2]; exact floor_div_eq_zero h0 (by norm_num) hs
    have h4 : ⌊s / 60⌋ = 0 := floor_div_eq_zero h0 (by norm_num) hs
    have h5 : jsMod s 60 = s := by rw [hm60, h4]; push_cast; ring
    unfold formatDuration
    rw [if_neg (by omega), if_neg (by omega), h5]

/-- Claim C9: for every nonnegative number of seconds, formatDuration buckets
into hours, minutes and seconds and omits zero-valued leading units: the
format is Hh Mm Ss when at least an hour, Mm Ss when at least a minute but
less than an hour, and Ss below a minute. -/
theorem formatDuration_buckets (s : ℚ) (h0 : 0 ≤ s) :
    (3600 ≤ s → formatDuration s =
      toString ⌊s / 3600⌋ ++ "h " ++
      toString ⌊(s - 3600 * (⌊s / 3600⌋ : ℚ)) / 60⌋ ++ "m " ++
      toString ⌊s - 60 * (⌊s / 60⌋ : ℚ)⌋ ++ "s") ∧
    (s < 3600 → 60 ≤ s → formatDuration s =
      toString ⌊s / 60⌋ ++ "m " ++ toString ⌊s - 60 * (⌊s / 60⌋ : ℚ)⌋ ++ "s") ∧
    (s < 60 → formatDuration s = toString ⌊s⌋ ++ "s") :=
  formatDuration_split s h0

/-- Witness for C9 at the spec's example: 1023 seconds formats as 17m 3s. -/
theorem formatDuration_buckets_witness : formatDuration 1023 = "17m 3s" := by
  have h := (formatDuration_buckets 1023 (by norm_num)).2.1 (by norm_num) (by norm_num)
  rw [h]
  have e1 : ⌊(1023 : ℚ) / 60⌋ = 17 := by
    have := ratFloorNatDiv 1023 60
    push_cast at this
    rw [this]
  rw [e1]
  have e2 : (1023 : ℚ) - 60 * ((17 : ℤ) : ℚ) = 3 := by push_cast; ring
  rw [e2]
  have e3 : ⌊(3 : ℚ)⌋ = 3 := by
    rw [show (3 : ℚ) = ((3 : ℤ) : ℚ) by norm_num]
    exact Int.floor_intCast 3
  rw [e3]
  decide

/-! ### C1: the extraction fallback loop stops at the first valid output -/

/-- Claim C1: the fallback loop invokes strategies strictly in list order and
stops at the first one whose invocation returns and whose output file exists
with size above the threshold; every earlier strategy that crashed or produced
an absent or undersized output was passed over, and no strategy after the
winner is invoked (the result does not depend on the tail, and the invocation
count is the winner's position plus one). -/
theorem extractor_first_success (threshold : Nat) (st : Option Nat)
    (pre post : List Effect) (e : Effect)
    (hpre : allFail threshold st pre = true)
    (he : attemptSucceeds threshold (pre.foldl applyEffect st) e = true) :
    runStrategies threshold st (pre ++ e :: post) =
      (applyEffect (pre.foldl applyEffect st) e, pre.length + 1,
       applyEffect (pre.foldl applyEffect st) e) := by
  induction pre generalizing st with
  | nil =>
    simp only [List.nil_append, List.foldl_nil] at he ⊢
    simp [runStrategies, he]
  | cons a pre ih =>
    rw [allFail, Bool.and_eq_true, Bool.not_eq_true'] at hpre
    rw [List.foldl_cons] at he
    rw [List.cons_append, runStrategies]
    rw [if_neg (by rw [hpre.1]; exact Bool.false_ne_true)]
    rw [ih (applyEffect st a) hpre.2 he]
    simp [List.foldl_cons]

/-- Witness for C1 at the spec's scenario: strategies S1 (fails), S2 (yields
20KB), S3 (yields 5MB) with a 10KB threshold return S2's 20KB artifact after
two invocations; S3 is never invoked. -/
theorem extractor_first_success_witness :
    runStrategies 10240 none
        [Effect.crash, Effect.produce 20480, Effect.produce 5242880] =
      (some 20480, 2, some 20480) :=
  extractor_first_success 10240 none [Effect.crash] [Effect.produce 5242880]
    (Effect.produce 20480) (by decide) (by decide)

/-! ### C5: scratch-directory lifetime of extractOptimizedSubtitles -/

/-- Counterexample to claim C5: a run in which ffmpeg throws (for example on
timeout) returns failure with the subs scratch directory still on disk; the
cleanup only runs on the path where cat and ffmpeg both return. -/
theorem scratch_cleanup_counterexample :
    (extractOptimizedSubtitles
        { artifact := none, fetchThrows := false, subsDirCreated := true,
          fetchedCount := 3, catThrows := false, ffmpegThrows := true,
          ffmpegOutput := none } 20).success = false ∧
    (extractOptimizedSubtitles
        { artifact := none, fetchThrows := false, subsDirCreated := true,
          fetchedCount := 3, catThrows := false, ffmpegThrows := true,
          ffmpegOutput := none } 20).subsDirAtEnd = true := by
  decide

/-- Amended claim C5: the scratch directory is removed exactly on the runs
that reach the removal statement, namely when the fetch, concatenation and
extraction invocations all return (whatever the produced output); when the
extraction invocation throws, the run fails with the scratch directory left
in place. -/
theorem scratch_cleanup_amended (env : ExtractEnv) (rate : Nat) :
    (env.fetchThrows = false → env.subsDirCreated = true →
     (selectedFiles rate (scratchListing env.fetchedCount)).isEmpty = false →
     env.catThrows = false → env.ffmpegThrows = false →
     (extractOptimizedSubtitles env rate).subsDirAtEnd = false) ∧
    (env.artifact = none → env.fetchThrows = false → env.subsDirCreated = true →
     (selectedFiles rate (scratchListing env.fetchedCount)).isEmpty = false →
     env.catThrows = false → env.ffmpegThrows = true →
     (extractOptimizedSubtitles env rate).subsDirAtEnd = true ∧
     (extractOptimizedSubtitles env rate).success = false) := by
  rcases env with ⟨art, ft, sc, fc, ct, fft, fo⟩
  constructor
  · intro hf hd hsel hct hff
    subst hf; subst hd; subst hct; subst hff
    rcases art with _ | s
    · simp [extractOptimizedSubtitles, extractOptimizedSubtitles.extractAfterCheck, hsel]
    · by_cases h5 : 5000 < s <;>
        simp [extractOptimizedSubtitles, extractOptimizedSubtitles.extractAfterCheck,
          hsel, h5]
  · intro ha hf hd hsel hct hff
    subst ha; subst hf; subst hd; subst hct; subst hff
    simp [extractOptimizedSubtitles, extractOptimizedSubtitles.extractAfterCheck, hsel]

/-- Witness for the amended C5 on a run whose invocations all return: the
scratch directory is gone at the end. -/
theorem scratch_cleanup_amended_witness :
    (extractOptimizedSubtitles
        { artifact := none, fetchThrows := false, subsDirCreated := true,
          fetchedCount := 3, catThrows := false, ffmpegThrows := false,
          ffmpegOutput := some 50 } 20).subsDirAtEnd = false :=
  (scratch_cleanup_amended
      { artifact := none, fetchThrows := false, subsDirCreated := true,
        fetchedCount := 3, catThrows := false, ffmpegThrows := false,
        ffmpegOutput := some 50 } 20).1 rfl rfl (by decide) rfl rfl

/-! ### C6: a valid existing artifact makes the run a no-op -/

/-- Claim C6: when captions.srt already exists with size above the 5000-byte
threshold, extractOptimizedSubtitles returns success immediately: the fetch
child process (the only source of network calls) is never started, no scratch
directory exists at the end, and the artifact is left unchanged. -/
theorem extract_idempotent_noop (env : ExtractEnv) (rate : Nat) (s : Nat)
    (ha : env.artifact = some s) (hs : 5000 < s) :
    extractOptimizedSubtitles env rate =
      { success := true, fetchInvoked := false, catInvoked := false,
        subsDirAtEnd := false, artifactAfter := env.artifact } := by
  unfold extractOptimizedSubtitles
  rw [ha]
  simp [hs]

/-- Witness for C6 at a 6000-byte artifact. -/
theorem extract_idempotent_noop_witness :
    extractOptimizedSubtitles
        { artifact := some 6000, fetchThrows := false, subsDirCreated := false,
          fetchedCount := 0, catThrows := false, ffmpegThrows := false,
          ffmpegOutput := none } 20 =
      { success := true, fetchInvoked := false, catInvoked := false,
        subsDirAtEnd := false, artifactAfter := some 6000 } :=
  extract_idempotent_noop
    { artifact := some 6000, fetchThrows := false, subsDirCreated := false,
      fetchedCount := 0, catThrows := false, ffmpegThrows := false,
      ffmpegOutput := none } 20 6000 rfl (by decide)

/-! ### C7: behaviour on empty manifests and empty selections -/

/-- Counterexample to claim C7: a manifest with a variant but zero segments
makes downloadAllSegments complete normally with zero fetches (no
EmptySelection failure exists in the code), and an empty selection in
extractOptimizedSubtitles merely returns false without invoking the
concatenation step. -/
theorem empty_selection_counterexample :
    downloadAllSegments { subtitleTracks := [], playlists := [['u']] } 0 none alwaysOk =
      DownloadOutcome.completed 0 ∧
    (extractOptimizedSubtitles
        { artifact := none, fetchThrows := false, subsDirCreated := true,
          fetchedCount := 0, catThrows := false, ffmpegThrows := false,
          ffmpegOutput := none } 20).success = false ∧
    (extractOptimizedSubtitles
        { artifact := none, fetchThrows := false, subsDirCreated := true,
          fetchedCount := 0, catThrows := false, ffmpegThrows := false,
          ffmpegOutput := none } 20).catInvoked = false := by
  decide

theorem segmentCount_zero (cap : Option Nat) : segmentCount cap 0 = 0 := by
  cases cap with
  | none => rfl
  | some m => by_cases h : m = 0 <;> simp [segmentCount, h]

/-- Amended claim C7: a zero-segment manifest leads to normal completion of
downloadAllSegments with no segment-data network call, and an empty selection
makes extractOptimizedSubtitles return false without invoking concatenation
or extraction; neither case raises an EmptySelection error, which does not
exist in the code. -/
theorem empty_selection_amended (m : MasterManifest) (cap : Option Nat)
    (ok : Nat → Bool) (env : ExtractEnv) (rate : Nat)
    (hvar : m.playlists ≠ [])
    (hart : env.artifact = none) (hf : env.fetchThrows = false)
    (hd : env.subsDirCreated = true)
    (hsel : (selectedFiles rate (scratchListing env.fetchedCount)).isEmpty = true) :
    downloadAllSegments m 0 cap ok = DownloadOutcome.completed 0 ∧
    extractOptimizedSubtitles env rate =
      { success := false, fetchInvoked := true, catInvoked := false,
        subsDirAtEnd := true, artifactAfter := env.artifact } := by
  constructor
  · obtain ⟨a, t, hpl⟩ := List.exists_cons_of_ne_nil hvar
    unfold downloadAllSegments
    rw [hpl]
    simp [segmentCount_zero]
  · rcases env with ⟨art, ft, sc, fc, ct, fft, fo⟩
    simp only at hart hf hd
    subst hart; subst hf; subst hd
    simp only at hsel
    simp [extractOptimizedSubtitles, extractOptimizedSubtitles.extractAfterCheck, hsel]

/-- Witness for the amended C7 at an empty manifest and an empty scratch
listing. -/
theorem empty_selection_amended_witness :
    downloadAllSegments { subtitleTracks := [], playlists := [['u']] } 0 (some 500) alwaysOk =
      DownloadOutcome.completed 0 ∧
    extractOptimizedSubtitles
        { artifact := none, fetchThrows := false, subsDirCreated := true,
          fetchedCount := 0, catThrows := false, ffmpegThrows := false,
          ffmpegOutput := none } 20 =
      { success := false, fetchInvoked := true, catInvoked := false,
        subsDirAtEnd := true, artifactAfter := none } :=
  empty_selection_amended { subtitleTracks := [], playlists := [['u']] } (some 500)
    alwaysOk
    { artifact := none, fetchThrows := false, subsDirCreated := true,
      fetchedCount := 0, catThrows := false, ffmpegThrows := false,
      ffmpegOutput := none } 20 (by decide) rfl rfl rfl (by decide)

/-! ### C8: no NoTracksFound or NoVariantsFound error kinds -/

/-- Counterexample to claim C8: a master manifest whose subtitle media group
declares no tracks makes concatWebVtt return the boolean false, and the main
of fetchSubs then silently falls back and completes a segment download; a
manifest with no variant makes downloadAllSegments return early without any
error.  No NoTracksFound or NoVariantsFound failure is surfaced. -/
theorem manifest_fallback_counterexample :
    concatWebVtt { subtitleTracks := [], playlists := [['u']] } noSegLists =
      { wroteTracks := false, segmentFetches := 0 } ∧
    fetchSubsMain { subtitleTracks := [], playlists := [['u']] } noSegLists 2 none
        alwaysOk = some (DownloadOutcome.completed 2) ∧
    downloadAllSegments { subtitleTracks := [], playlists := [] } 5 none alwaysOk =
      DownloadOutcome.noVariant := by
  decide

/-- Amended claim C8: when the subtitle media group declares no tracks,
concatWebVtt returns false (no fetches, no error) and fetchSubs falls back to
the video-segment download; when no variant playlist exists,
downloadAllSegments returns early and silently.  Neither condition is
surfaced as a distinct error kind. -/
theorem manifest_fallback_amended (m : MasterManifest)
    (ts : List SubtitleTrack → List Nat) (segTotal : Nat) (cap : Option Nat)
    (ok : Nat → Bool) :
    (m.subtitleTracks = [] →
      concatWebVtt m ts = { wroteTracks := false, segmentFetches := 0 } ∧
      fetchSubsMain m ts segTotal cap ok =
        some (downloadAllSegments m segTotal cap ok)) ∧
    (m.playlists = [] →
      downloadAllSegments m segTotal cap ok = DownloadOutcome.noVariant) := by
  constructor
  · intro h
    constructor
    · simp [concatWebVtt, h]
    · simp [fetchSubsMain, concatWebVtt, h]
  · intro h
    unfold downloadAllSegments
    rw [h]
    rfl

/-- Witness for the amended C8 at a trackless manifest and at a variantless
manifest. -/
theorem manifest_fallback_amended_witness :
    (concatWebVtt { subtitleTracks := [], playlists := [['u']] } noSegLists =
       { wroteTracks := false, segmentFetches := 0 } ∧
     fetchSubsMain { subtitleTracks := [], playlists := [['u']] } noSegLists 7 none
        alwaysOk =
       some (downloadAllSegments { subtitleTracks := [], playlists := [['u']] } 7
          none alwaysOk)) ∧
    downloadAllSegments { subtitleTracks := [], playlists := [] } 5 none alwaysOk =
      DownloadOutcome.noVariant :=
  ⟨(manifest_fallback_amended { subtitleTracks := [], playlists := [['u']] }
      noSegLists 7 none alwaysOk).1 rfl,
   (manifest_fallback_amended { subtitleTracks := [], playlists := [] }
      noSegLists 5 none alwaysOk).2 rfl⟩

/-! ### C2: the stride sampler -/

theorem strideIndices_pairwise (n L : Nat) : (strideIndices n L).Pairwise (· < ·) :=
  (List.pairwise_lt_range L).filter _

theorem mem_strideIndices {n L i : Nat} :
    i ∈ strideIndices n L ↔ i < L ∧ n ∣ i := by
  simp only [strideIndices, List.mem_filter, List.mem_range, beq_iff_eq]
  exact and_congr_right fun _ => Nat.dvd_iff_mod_eq_zero.symm

theorem zero_mem_strideIndices (n : Nat) {L : Nat} (hL : 0 < L) :
    0 ∈ strideIndices n L := by
  simp [strideIndices, List.mem_filter, List.mem_range, hL, Nat.zero_mod]

theorem strideIndices_length {n : Nat} (hn : 0 < n) (L : Nat) :
    (strideIndices n L).length = (L + n - 1) / n := by
  induction L with
  | zero =>
    have h0 : (0 + n - 1) / n = 0 := Nat.div_eq_of_lt (by omega)
    simp only [strideIndices, List.range_zero, List.filter_nil, List.length_nil, h0]
  | succ L ih =>
    have key : (strideIndices n (L + 1)).length =
        (strideIndices n L).length + (if L % n = 0 then 1 else 0) := by
      unfold strideIndices
      rw [List.range_succ, List.filter_append, List.length_append]
      by_cases h : L % n = 0
      · simp [List.filter_cons, h]
      · simp [List.filter_cons, h]
    rw [key, ih]
    have h1 := Nat.div_add_mod L n
    have h2 := Nat.mod_lt L hn
    by_cases h : L % n = 0
    · have eL : (L + n - 1) / n = L / n := by
        have e1 : L + n - 1 = n * (L / n) + (n - 1) := by omega
        rw [e1, Nat.mul_add_div hn,
          Nat.div_eq_of_lt (show n - 1 < n by omega), Nat.add_zero]
      have eR : (L + 1 + n - 1) / n = L / n + 1 := by
        have e2 : L + 1 + n - 1 = n * (L / n) + n := by omega
        rw [e2, Nat.mul_add_div hn, Nat.div_self hn]
      rw [if_pos h, eL, eR]
    · have eL : (L + n - 1) / n = L / n + 1 := by
        have e1 : L + n - 1 = n * (L / n) + (L % n + n - 1) := by omega
        rw [e1, Nat.mul_add_div hn]
        have e3 : (L % n + n - 1) / n = 1 :=
          Nat.div_eq_of_lt_le (by omega) (by omega)
        rw [e3]
      have eR : (L + 1 + n - 1) / n = L / n + 1 := by
        have e2 : L + 1 + n - 1 = n * (L / n) + (L % n + n) := by omega
        rw [e2, Nat.mul_add_div hn]
        have e3 : (L % n + n) / n = 1 :=
          Nat.div_eq_of_lt_le (by omega) (by omega)
        rw [e3]
      rw [if_neg h, eL, eR]

theorem enum_filter_fst (n : Nat) {α : Type} (files : List α) :
    (files.enum.filter (fun p => p.1 % n == 0)).map Prod.fst =
      strideIndices n files.length := by
  have h : (files.enum.map Prod.fst).filter (fun i => i % n == 0) =
      (files.enum.filter (fun p => p.1 % n == 0)).map Prod.fst :=
    List.filter_map Prod.fst files.enum
  rw [← h, List.enum_map_fst]
  rfl

theorem zip_self_eq_map {α : Type} (l : List α) :
    l.zip l = l.map (fun a => (a, a)) := by
  induction l with
  | nil => rfl
  | cons a l ih => simp [List.zip_cons_cons, ih]

theorem sampleByStride_range (n k : Nat) :
    sampleByStride n (List.range k) = strideIndices n k := by
  unfold sampleByStride
  rw [List.enum_eq_zip_range, List.length_range, zip_self_eq_map,
    List.filter_map, List.map_map]
  have : (Prod.snd ∘ fun a : Nat => (a, a)) = id := rfl
  rw [this, List.map_id]
  rfl

/-- Counterexample to claim C2: on the empty manifest the stride sample is
empty and therefore does not contain index 0, although the claim asserts
membership of index 0 for every manifest. -/
theorem sampler_stride_counterexample :
    sampleByStride 1 ([] : List (List Char)) = [] ∧
    0 ∉ strideIndices 1 (List.length ([] : List (List Char))) := by
  decide

/-- Amended claim C2: for every manifest and stride n at least one, the stride
sample is strictly increasing (hence free of duplicates and reorderings),
selects exactly the indices below the manifest length that are multiples of n,
has length the ceiling of length over n, and contains index 0 whenever the
manifest is nonempty. -/
theorem sampler_stride_amended {n : Nat} (hn : 1 ≤ n) (L : Nat) :
    (strideIndices n L).Pairwise (· < ·) ∧
    (∀ i, i ∈ strideIndices n L ↔ i < L ∧ n ∣ i) ∧
    (strideIndices n L).length = (L + n - 1) / n ∧
    (0 < L → 0 ∈ strideIndices n L) ∧
    (∀ files : List (List Char), files.length = L →
      (files.enum.filter (fun p => p.1 % n == 0)).map Prod.fst =
        strideIndices n L) := by
  refine ⟨strideIndices_pairwise n L, fun i => mem_strideIndices,
    strideIndices_length hn L, fun hL => zero_mem_strideIndices n hL,
    fun files hlen => ?_⟩
  rw [enum_filter_fst, hlen]

/-- Witness for the amended C2 at stride 3 over a seven-element manifest. -/
theorem sampler_stride_amended_witness :
    (strideIndices 3 7).length = (7 + 3 - 1) / 3 ∧ 0 ∈ strideIndices 3 7 :=
  ⟨(sampler_stride_amended (by decide) 7).2.2.1,
   (sampler_stride_amended (by decide) 7).2.2.2.1 (by decide)⟩

/-! ### C10: zero-padded segment names sort like their indices -/

theorem digitChar_zero : digitChar 0 = '0' := rfl

theorem natToCharsAux_small {f n : Nat} (h : n < 10) :
    natToCharsAux f n = [digitChar n] := by
  cases f with
  | zero => rfl
  | succ f => simp [natToCharsAux, h]

theorem natToCharsAux_two {f n : Nat} (h1 : 10 ≤ n) (h2 : n < 100) (hf : 1 ≤ f) :
    natToCharsAux f n = [digitChar (n / 10), digitChar (n % 10)] := by
  obtain ⟨g, rfl⟩ : ∃ g, f = g + 1 := ⟨f - 1, by omega⟩
  simp only [natToCharsAux]
  rw [if_neg (by omega : ¬ n < 10),
    natToCharsAux_small (by omega : n / 10 < 10)]
  rfl

theorem natToCharsAux_three {f n : Nat} (h1 : 100 ≤ n) (h2 : n < 1000) (hf : 2 ≤ f) :
    natToCharsAux f n =
      [digitChar (n / 100), digitChar (n / 10 % 10), digitChar (n % 10)] := by
  obtain ⟨g, rfl⟩ : ∃ g, f = g + 1 := ⟨f - 1, by omega⟩
  simp only [natToCharsAux]
  rw [if_neg (by omega : ¬ n < 10),
    natToCharsAux_two (by omega) (by omega) (by omega)]
  have e1 : n / 10 / 10 = n / 100 := by omega
  rw [e1]
  rfl

theorem natToCharsAux_four {f n : Nat} (h1 : 1000 ≤ n) (h2 : n < 10000) (hf : 3 ≤ f) :
    natToCharsAux f n =
      [digitChar (n / 1000), digitChar (n / 100 % 10),
       digitChar (n / 10 % 10), digitChar (n % 10)] := by
  obtain ⟨g, rfl⟩ : ∃ g, f = g + 1 := ⟨f - 1, by omega⟩
  simp only [natToCharsAux]
  rw [if_neg (by omega : ¬ n < 10),
    natToCharsAux_three (by omega) (by omega) (by omega)]
  have e1 : n / 10 / 100 = n / 1000 := by omega
  have e2 : n / 10 / 10 % 10 = n / 100 % 10 := by omega
  rw [e1, e2]
  rfl

/-- For indices below 10000 the padded file-name digits are exactly the four
decimal digits of the index. -/
theorem padStart_natToChars {i : Nat} (h : i < 10000) :
    padStart 4 '0' (natToChars i) =
      [digitChar (i / 1000 % 10), digitChar (i / 100 % 10),
       digitChar (i / 10 % 10), digitChar (i % 10)] := by
  have e1 : i / 1000 % 10 = i / 1000 := by omega
  rw [e1]
  unfold natToChars padStart
  rcases Nat.lt_or_ge i 10 with h1 | h1
  · rw [natToCharsAux_small h1]
    have d1 : i / 1000 = 0 := by omega
    have d2 : i / 100 % 10 = 0 := by omega
    have d3 : i / 10 % 10 = 0 := by omega
    have d4 : i % 10 = i := by omega
    rw [d1, d2, d3, d4, digitChar_zero]
    rfl
  rcases Nat.lt_or_ge i 100 with h2 | h2
  · rw [natToCharsAux_two h1 h2 (by omega)]
    have d1 : i / 1000 = 0 := by omega
    have d2 : i / 100 % 10 = 0 := by omega
    have d3 : i / 10 % 10 = i / 10 := by omega
    rw [d1, d2, d3, digitChar_zero]
    rfl
  rcases Nat.lt_or_ge i 1000 with h3 | h3
  · rw [natToCharsAux_three h2 h3 (by omega)]
    have d1 : i / 1000 = 0 := by omega
    have d2 : i / 100 % 10 = i / 100 := by omega
    rw [d1, d2, digitChar_zero]
    rfl
  · rw [natToCharsAux_four h3 h (by omega)]
    rfl

theorem lexLt_cons_same (c : Char) (a b : List Char) :
    lexLt (c :: a) (c :: b) = lexLt a b := by
  simp [lexLt]

theorem lexLt_append_left (x : List Char) {a b : List Char}
    (hab : lexLt a b = true) : lexLt (x ++ a) (x ++ b) = true := by
  induction x with
  | nil => exact hab
  | cons c x ih => rw [List.cons_append, List.cons_append, lexLt_cons_same]; exact ih

theorem lexLt_cons_of_lt {a b : Char} (as bs : List Char) (h : a < b) :
    lexLt (a :: as) (b :: bs) = true := by
  simp [lexLt, h]

theorem lexLt_asymm : ∀ {a b : List Char}, lexLt a b = true → lexLt b a = false := by
  intro a
  induction a with
  | nil =>
    intro b h
    cases b with
    | nil => simp [lexLt] at h
    | cons c cs => simp [lexLt]
  | cons c cs ih =>
    intro b h
    cases b with
    | nil => simp [lexLt] at h
    | cons d ds =>
      simp only [lexLt, Bool.or_eq_true, Bool.and_eq_true, decide_eq_true_eq,
        beq_iff_eq] at h
      simp only [lexLt, Bool.or_eq_false_iff, Bool.and_eq_false_iff,
        decide_eq_false_iff_not]
      rcases h with h | ⟨rfl, h⟩
      · exact ⟨not_lt_of_lt h, Or.inl (by simp [beq_iff_eq]; exact (ne_of_lt h).symm)⟩
      · exact ⟨lt_irrefl c, Or.inr (ih h)⟩

/-- Lexicographic order of segment file names agrees with index order below
10000. -/
theorem segmentName_lex_mono {i j : Nat} (hij : i < j) (hj : j < 10000) :
    lexLt (segmentName i) (segmentName j) = true := by
  unfold segmentName
  rw [padStart_natToChars (by omega : i < 10000), padStart_natToChars hj,
    List.append_assoc, List.append_assoc]
  apply lexLt_append_left
  simp only [List.cons_append, List.nil_append]
  set a3 := i / 1000 % 10 with ha3
  set a2 := i / 100 % 10 with ha2
  set a1 := i / 10 % 10 with ha1
  set a0 := i % 10 with ha0
  set b3 := j / 1000 % 10 with hb3
  set b2 := j / 100 % 10 with hb2
  set b1 := j / 10 % 10 with hb1
  set b0 := j % 10 with hb0
  have hdi : i = 1000 * a3 + 100 * a2 + 10 * a1 + a0 := by omega
  have hdj : j = 1000 * b3 + 100 * b2 + 10 * b1 + b0 := by omega
  have key : a3 < b3 ∨ (a3 = b3 ∧ (a2 < b2 ∨ (a2 = b2 ∧
      (a1 < b1 ∨ (a1 = b1 ∧ a0 < b0))))) := by omega
  rcases key with h | ⟨e1, h⟩
  · exact lexLt_cons_of_lt _ _ (digitChar_lt_digitChar (by omega) (by omega) h)
  rw [e1, lexLt_cons_same]
  rcases h with h | ⟨e2, h⟩
  · exact lexLt_cons_of_lt _ _ (digitChar_lt_digitChar (by omega) (by omega) h)
  rw [e2, lexLt_cons_same]
  rcases h with h | ⟨e3, h⟩
  · exact lexLt_cons_of_lt _ _ (digitChar_lt_digitChar (by omega) (by omega) h)
  rw [e3, lexLt_cons_same]
  exact lexLt_cons_of_lt _ _ (digitChar_lt_digitChar (by omega) (by omega) h)

theorem endsWithTs_segmentName (i : Nat) : endsWithTs (segmentName i) = true := by
  unfold endsWithTs segmentName
  rw [List.reverse_append, List.reverse_append]
  rfl

theorem segmentNames_sorted {k : Nat} (hk : k ≤ 10000) :
    List.Sorted lexLe ((List.range k).map segmentName) := by
  rw [List.Sorted, List.pairwise_map]
  refine (List.pairwise_lt_range k).imp_of_mem ?_
  intro a b ha hb hab
  have hb' : b < k := List.mem_range.mp hb
  exact lexLt_asymm (segmentName_lex_mono hab (by omega))

/-- The sorted .ts listing of a scratch directory holding the first k segment
files is the file list in index order, for k up to 10000. -/
theorem scratchListing_eq {k : Nat} (hk : k ≤ 10000) :
    scratchListing k = (List.range k).map segmentName := by
  unfold scratchListing
  have hf : (((List.range k).map segmentName).filter endsWithTs) =
      (List.range k).map segmentName := by
    refine List.filter_eq_self.mpr ?_
    intro a ha
    obtain ⟨i, _, rfl⟩ := List.mem_map.mp ha
    exact endsWithTs_segmentName i
  rw [hf]
  exact List.Sorted.insertionSort_eq (segmentNames_sorted hk)

/-- Claim C10: segment file names zero-pad the index to four digits (name
length 15), lexicographic order on the names agrees with numeric order for
indices below 10000, and sorting the fetched file names lexicographically
reproduces ascending index order for listings of at most 10000 files. -/
theorem segment_naming_lex (i j : Nat) (hij : i < j) (hj : j < 10000) :
    (segmentName i).length = 15 ∧
    lexLt (segmentName i) (segmentName j) = true ∧
    (∀ k, k ≤ 10000 →
      List.insertionSort lexLe (((List.range k).map segmentName).filter endsWithTs) =
        (List.range k).map segmentName) := by
  refine ⟨?_, segmentName_lex_mono hij hj, fun k hk => scratchListing_eq hk⟩
  unfold segmentName
  rw [padStart_natToChars (by omega : i < 10000)]
  rfl

/-- Witness for C10 at indices 3 and 12 and a five-file listing. -/
theorem segment_naming_lex_witness :
    lexLt (segmentName 3) (segmentName 12) = true ∧
    List.insertionSort lexLe (((List.range 5).map segmentName).filter endsWithTs) =
      (List.range 5).map segmentName :=
  ⟨(segment_naming_lex 3 12 (by decide) (by decide)).2.1,
   (segment_naming_lex 3 12 (by decide) (by decide)).2.2 5 (by decide)⟩

/-! ### C4: composition of cap and stride -/

theorem sampleByStride_map {α β : Type} (n : Nat) (f : α → β) (l : List α) :
    sampleByStride n (l.map f) = (sampleByStride n l).map f := by
  unfold sampleByStride
  rw [List.enum_map, List.filter_map, List.map_map, List.map_map]
  rfl

theorem strideIndices_one (k : Nat) : strideIndices 1 k = List.range k := by
  refine List.filter_eq_self.mpr ?_
  intro a _
  simp [Nat.mod_one]

/-- Counterexample to claim C4: with stride 10 and cap 20 over a 100-segment
manifest, the pipeline selects the files of indices 0 and 10 (stride applied
to the capped 20-segment prefix), not the first 20 stride multiples of the
full manifest as the claim asserts. -/
theorem cap_stride_counterexample :
    optimizedSelection 10 20 100 ≠ (specComposedIndices 10 20 100).map segmentName := by
  decide

/-- Amended claim C4: when a cap and a stride are configured together, the cap
is applied first (the fetch child downloads only the capped prefix of the
manifest) and the stride then thins the downloaded prefix: the selected files
are exactly the stride multiples below min(cap, total). -/
theorem cap_stride_composition (rate cap total : Nat) (hrate : 1 ≤ rate)
    (hk : segmentCount (capArgument cap) total ≤ 10000) :
    optimizedSelection rate cap total =
      (strideIndices rate (segmentCount (capArgument cap) total)).map segmentName := by
  unfold optimizedSelection selectedFiles
  rw [scratchListing_eq hk]
  by_cases h : 1 < rate
  · rw [if_pos h, sampleByStride_map, sampleByStride_range]
  · have h1 : rate = 1 := by omega
    subst h1
    rw [if_neg h, strideIndices_one]

/-- Witness for the amended C4 at stride 10, cap 20, total 100. -/
theorem cap_stride_composition_witness :
    optimizedSelection 10 20 100 =
      (strideIndices 10 (segmentCount (capArgument 20) 100)).map segmentName :=
  cap_stride_composition 10 20 100 (by decide) (by decide)

/-! ### C3: what the DurationAnalyzer reports for the last cue -/

theorem splitOnChar_of_not_mem {sep : Char} {l : List Char} (h : sep ∉ l) :
    splitOnChar sep l = [l] := by
  induction l with
  | nil => rfl
  | cons c cs ih =>
    simp only [splitOnChar]
    rw [if_neg (fun e : c = sep => h (e ▸ List.mem_cons_self c cs)),
      ih (fun hm => h (List.mem_cons_of_mem c hm))]

theorem splitOnChar_append {sep : Char} {l : List Char} (h : sep ∉ l)
    (rest : List Char) :
    splitOnChar sep (l ++ sep :: rest) = l :: splitOnChar sep rest := by
  induction l with
  | nil => simp [splitOnChar]
  | cons c cs ih =>
    simp only [List.cons_append, splitOnChar]
    rw [if_neg (fun e : c = sep => h (e ▸ List.mem_cons_self c cs))]
    rw [List.append_eq, ih (fun hm => h (List.mem_cons_of_mem c hm))]

theorem splitOnChar_joinWith {sep : Char} :
    ∀ {ls : List (List Char)}, ls ≠ [] → (∀ l ∈ ls, sep ∉ l) →
      splitOnChar sep (joinWith sep ls) = ls
  | [], hne, _ => absurd rfl hne
  | [l], _, hnm => by
    simp only [joinWith]
    exact splitOnChar_of_not_mem (hnm l (List.mem_cons_self l []))
  | l :: l2 :: ls, _, hnm => by
    simp only [joinWith]
    rw [splitOnChar_append (hnm l (List.mem_cons_self l _))]
    rw [splitOnChar_joinWith (List.cons_ne_nil l2 ls)
      (fun x hx => hnm x (List.mem_cons_of_mem l hx))]

/-- The arrow-containing nonblank lines of a joined content are a single
filter over the original lines. -/
theorem timestampLines_joinWith {lines : List (List Char)} (hne : lines ≠ [])
    (hnl : ∀ l ∈ lines, '\n' ∉ l) :
    timestampLines (joinWith '\n' lines) =
      lines.filter (fun l => containsArrow l && !(trimChars l).isEmpty) := by
  unfold timestampLines subtitleLines
  rw [splitOnChar_joinWith hne hnl, List.filter_filter]

theorem startsWithArrow_eq_false {c : Char} (hc : ¬ c = '-') :
    ∀ l, startsWithArrow (c :: l) = false
  | [] => rfl
  | [_] => rfl
  | _ :: _ :: _ => by
    simp only [startsWithArrow, Bool.and_eq_false_iff]
    exact Or.inl (Or.inl (beq_eq_false_iff_ne.mpr hc))

theorem beforeArrow_append {xs : List Char} (h : ∀ c ∈ xs, c ≠ '-')
    (ys : List Char) :
    beforeArrow (xs ++ '-' :: '-' :: '>' :: ys) = xs := by
  induction xs with
  | nil => rfl
  | cons c cs ih =>
    simp only [List.cons_append, beforeArrow]
    rw [if_neg (by
      rw [startsWithArrow_eq_false (h c (List.mem_cons_self c cs))]
      exact Bool.false_ne_true)]
    rw [List.append_eq, ih (fun d hd => h d (List.mem_cons_of_mem c hd))]

theorem no_dash_in_renderTime_space {a : CueTime} (ha : a.wf) :
    ∀ c ∈ renderTime a ++ [' '], c ≠ '-' := by
  obtain ⟨h1, h2, h3, h4⟩ := ha
  intro c hc
  rcases List.mem_append.mp hc with hc | hc
  · simp only [renderTime, List.mem_cons, List.not_mem_nil, or_false] at hc
    rcases hc with rfl | rfl | rfl | rfl | rfl | rfl | rfl | rfl | rfl | rfl | rfl | rfl <;>
      first
        | exact digitChar_ne_dash (by omega)
        | decide
  · rw [List.mem_singleton.mp hc]
    decide

theorem beforeArrow_renderCueLine (a b : CueTime) (ha : a.wf) :
    beforeArrow (renderCueLine a b) = renderTime a ++ [' '] := by
  have hshape : renderCueLine a b =
      (renderTime a ++ [' ']) ++ '-' :: '-' :: '>' :: (' ' :: renderTime b) := by
    unfold renderCueLine
    rw [List.append_assoc]
    rfl
  rw [hshape, beforeArrow_append (no_dash_in_renderTime_space ha)]

theorem trimChars_renderTime {a : CueTime} (ha : a.wf) :
    trimChars (renderTime a ++ [' ']) = renderTime a := by
  obtain ⟨h1, h2, h3, h4⟩ := ha
  have hw1 : (digitChar (a.hh / 10)).isWhitespace = false := digitChar_not_ws (by omega)
  have hw2 : (digitChar (a.ms % 10)).isWhitespace = false := digitChar_not_ws (by omega)
  unfold trimChars
  rw [show renderTime a ++ [' '] =
      digitChar (a.hh / 10) :: (digitChar (a.hh % 10) :: ':' ::
        digitChar (a.mm / 10) :: digitChar (a.mm % 10) :: ':' ::
        digitChar (a.ss / 10) :: digitChar (a.ss % 10) :: ',' ::
        digitChar (a.ms / 100) :: digitChar (a.ms / 10 % 10) ::
        digitChar (a.ms % 10) :: [' ']) from rfl]
  rw [List.dropWhile_cons, if_neg (by rw [hw1]; exact Bool.false_ne_true)]
  rw [show (digitChar (a.hh / 10) :: (digitChar (a.hh % 10) :: ':' ::
      digitChar (a.mm / 10) :: digitChar (a.mm % 10) :: ':' ::
      digitChar (a.ss / 10) :: digitChar (a.ss % 10) :: ',' ::
      digitChar (a.ms / 100) :: digitChar (a.ms / 10 % 10) ::
      digitChar (a.ms % 10) :: [' '])).reverse =
      ' ' :: digitChar (a.ms % 10) :: digitChar (a.ms / 10 % 10) ::
      digitChar (a.ms / 100) :: ',' :: digitChar (a.ss % 10) ::
      digitChar (a.ss / 10) :: ':' :: digitChar (a.mm % 10) ::
      digitChar (a.mm / 10) :: ':' :: digitChar (a.hh % 10) ::
      [digitChar (a.hh / 10)] from rfl]
  rw [List.dropWhile_cons, if_pos (by decide)]
  rw [List.dropWhile_cons, if_neg (by rw [hw2]; exact Bool.false_ne_true)]
  rfl

theorem matchTsAt_renderTime {t : CueTime} (ht : t.wf) (rest : List Char) :
    matchTsAt (renderTime t ++ rest) = some (t.hh, t.mm, t.ss, t.ms) := by
  obtain ⟨h1, h2, h3, h4⟩ := ht
  have d1 := digitChar_isDigit (show t.hh / 10 < 10 by omega)
  have d2 := digitChar_isDigit (show t.hh % 10 < 10 by omega)
  have d3 := digitChar_isDigit (show t.mm / 10 < 10 by omega)
  have d4 := digitChar_isDigit (show t.mm % 10 < 10 by omega)
  have d5 := digitChar_isDigit (show t.ss / 10 < 10 by omega)
  have d6 := digitChar_isDigit (show t.ss % 10 < 10 by omega)
  have d7 := digitChar_isDigit (show t.ms / 100 < 10 by omega)
  have d8 := digitChar_isDigit (show t.ms / 10 % 10 < 10 by omega)
  have d9 := digitChar_isDigit (show t.ms % 10 < 10 by omega)
  rw [show renderTime t ++ rest =
      digitChar (t.hh / 10) :: digitChar (t.hh % 10) :: ':' ::
      digitChar (t.mm / 10) :: digitChar (t.mm % 10) :: ':' ::
      digitChar (t.ss / 10) :: digitChar (t.ss % 10) :: ',' ::
      digitChar (t.ms / 100) :: digitChar (t.ms / 10 % 10) ::
      digitChar (t.ms % 10) :: rest from by simp [renderTime]]
  simp only [matchTsAt]
  rw [if_pos (by rw [d1, d2, d3, d4, d5, d6, d7, d8, d9]; rfl)]
  rw [digitVal_digitChar (show t.hh / 10 < 10 by omega),
    digitVal_digitChar (show t.hh % 10 < 10 by omega),
    digitVal_digitChar (show t.mm / 10 < 10 by omega),
    digitVal_digitChar (show t.mm % 10 < 10 by omega),
    digitVal_digitChar (show t.ss / 10 < 10 by omega),
    digitVal_digitChar (show t.ss % 10 < 10 by omega),
    digitVal_digitChar (show t.ms / 100 < 10 by omega),
    digitVal_digitChar (show t.ms / 10 % 10 < 10 by omega),
    digitVal_digitChar (show t.ms % 10 < 10 by omega)]
  have e1 : 10 * (t.hh / 10) + t.hh % 10 = t.hh := by omega
  have e2 : 10 * (t.mm / 10) + t.mm % 10 = t.mm := by omega
  have e3 : 10 * (t.ss / 10) + t.ss % 10 = t.ss := by omega
  have e4 : 100 * (t.ms / 100) + 10 * (t.ms / 10 % 10) + t.ms % 10 = t.ms := by omega
  rw [e1, e2, e3, e4]

theorem findTs_renderTime {t : CueTime} (ht : t.wf) :
    findTs (renderTime t) = some (t.hh, t.mm, t.ss, t.ms) := by
  have h := matchTsAt_renderTime ht []
  rw [List.append_nil] at h
  rw [show renderTime t =
      digitChar (t.hh / 10) :: (digitChar (t.hh % 10) :: ':' ::
      digitChar (t.mm / 10) :: digitChar (t.mm % 10) :: ':' ::
      digitChar (t.ss / 10) :: digitChar (t.ss % 10) :: ',' ::
      digitChar (t.ms / 100) :: digitChar (t.ms / 10 % 10) ::
      [digitChar (t.ms % 10)]) from rfl] at h ⊢
  simp only [findTs]
  rw [h]

theorem parseTimestamp_renderTime {t : CueTime} (ht : t.wf) :
    parseTimestamp (renderTime t) = t.seconds := by
  unfold parseTimestamp
  rw [findTs_renderTime ht]
  rfl

/-- Amended claim C3: for every caption artifact whose nonblank cue-arrow
lines are exactly the rendered HH:MM:SS,mmm --> HH:MM:SS,mmm timing lines of
a cue list, the analyzer reports the START time of the last cue as
lastTimestampSeconds (the code parses the part of the last arrow line before
the arrow), not the end time. -/
theorem analyzer_reports_last_cue_start (cues : List (CueTime × CueTime))
    (lines : List (List Char))
    (hwf : ∀ c ∈ cues, c.1.wf)
    (hne : lines ≠ [])
    (hnl : ∀ l ∈ lines, '\n' ∉ l)
    (hsel : lines.filter (fun l => containsArrow l && !(trimChars l).isEmpty) =
      cues.map (fun c => renderCueLine c.1 c.2)) :
    lastCueSeconds (joinWith '\n' lines) =
      cues.getLast?.map (fun c => c.1.seconds) := by
  unfold lastCueSeconds
  rw [timestampLines_joinWith hne hnl, hsel, List.getLast?_map, Option.map_map]
  cases hc : cues.getLast? with
  | none => rfl
  | some c =>
    have hcw : c.1.wf := hwf c (List.mem_of_mem_getLast? (Option.mem_def.mpr hc))
    simp only [Option.map_some', Function.comp_apply]
    rw [beforeArrow_renderCueLine c.1 c.2 hcw, trimChars_renderTime hcw,
      parseTimestamp_renderTime hcw]

/-- The subtitle file of the spec's example, with last cue timing
02:17:20,100 --> 02:17:23,477. -/
def exampleSrt : List Char :=
  ("1\n00:00:11,512 --> 00:00:13,985\nGood evening.\n\n2\n02:17:20,100 --> 02:17:23,477\nMeeting adjourned.\n").toList

theorem formatDuration_example : formatDuration (82401 / 10 : ℚ) = "2h 17m 20s" := by
  have h0 : (0 : ℚ) ≤ 82401 / 10 := by norm_num
  have h := (formatDuration_split (82401 / 10) h0).1 (by norm_num)
  rw [h]
  have f1 : ⌊(82401 / 10 : ℚ) / 3600⌋ = 2 := by
    rw [show (82401 / 10 : ℚ) / 3600 = ((82401 : ℕ) : ℚ) / ((36000 : ℕ) : ℚ) by
      push_cast; norm_num]
    rw [ratFloorNatDiv]
    decide
  rw [f1]
  have f3 : ⌊(82401 / 10 : ℚ) / 60⌋ = 137 := by
    rw [show (82401 / 10 : ℚ) / 60 = ((82401 : ℕ) : ℚ) / ((600 : ℕ) : ℚ) by
      push_cast; norm_num]
    rw [ratFloorNatDiv]
    decide
  rw [f3]
  have f2 : ((82401 / 10 : ℚ) - 3600 * ((2 : ℤ) : ℚ)) / 60 =
      ((10401 : ℕ) : ℚ) / ((600 : ℕ) : ℚ) := by
    push_cast
    norm_num
  rw [f2, ratFloorNatDiv]
  have f4 : (82401 / 10 : ℚ) - 60 * ((137 : ℤ) : ℚ) =
      ((201 : ℕ) : ℚ) / ((10 : ℕ) : ℚ) := by
    push_cast
    norm_num
  rw [f4, ratFloorNatDiv]
  decide

/-- Counterexample to claim C3: on the spec's example artifact the analyzer
reports 8240.1 seconds (the start of the last cue) formatted as 2h 17m 20s,
not 8243.477 seconds and 2h 17m 23s as the claim asserts. -/
theorem analyzer_last_cue_counterexample :
    lastCueSeconds exampleSrt = some (82401 / 10 : ℚ) ∧
    (82401 / 10 : ℚ) ≠ 8243477 / 1000 ∧
    subtitleDuration exampleSrt = some "2h 17m 20s" ∧
    "2h 17m 20s" ≠ "2h 17m 23s" := by
  have h0 : lastCueSeconds exampleSrt = some (tsSeconds (2, 17, 20, 100)) := rfl
  have h1 : tsSeconds (2, 17, 20, 100) = 82401 / 10 := by norm_num [tsSeconds]
  refine ⟨by rw [h0, h1], by norm_num, ?_, by decide⟩
  unfold subtitleDuration
  rw [h0, h1, Option.map_some', formatDuration_example]

/-- Cues of the example artifact. -/
def exampleCues : List (CueTime × CueTime) :=
  [(⟨0, 0, 11, 512⟩, ⟨0, 0, 13, 985⟩), (⟨2, 17, 20, 100⟩, ⟨2, 17, 23, 477⟩)]

/-- Lines of the example artifact. -/
def exampleLines : List (List Char) :=
  [['1'], renderCueLine ⟨0, 0, 11, 512⟩ ⟨0, 0, 13, 985⟩, "Good evening.".toList,
   ['2'], renderCueLine ⟨2, 17, 20, 100⟩ ⟨2, 17, 23, 477⟩,
   "Meeting adjourned.".toList]

/-- Witness for the amended C3 at the example artifact. -/
theorem analyzer_reports_last_cue_start_witness :
    lastCueSeconds (joinWith '\n' exampleLines) =
      exampleCues.getLast?.map (fun c => c.1.seconds) :=
  analyzer_reports_last_cue_start exampleCues exampleLines (by decide) (by decide)
    (by decide) (by decide)

end MCPS





